import Mathlib

/-!
Verification development for the wclaude process-supervision shim.

The definitions below are a shallow embedding of the JavaScript sources:
`runner.js` (supervisor, runtime hooks) and `blocklist.js` (command
validator).  Pure JS functions become Lean functions; the stateful
supervisor loop becomes explicit state passing over a list of host-run
outcomes; machine arithmetic is `Nat`/`Int`; JS exceptions become
`Except`/`Option`.
-/

namespace Wclaude

/-! ## Basic string helpers (JS `String.prototype.includes`, `toLowerCase`) -/

/-- JS `hay.includes(needle)` on char lists: some suffix of `hay` starts with `needle`. -/
def listIncludes (hay needle : List Char) : Bool :=
  hay.tails.any (fun t => needle.isPrefixOf t)

/-- JS `hay.includes(needle)` on strings. -/
def strIncludes (hay needle : String) : Bool :=
  listIncludes hay.data needle.data

/-- JS `s.toLowerCase()` (ASCII range, which is all the sources use). -/
def lcString (s : String) : String :=
  ⟨s.data.map Char.toLower⟩

/-! ## Network Error Classifier (`runner.js`, `isNetworkError`) -/

/-- Model of a JS error object: optional `code` property and a `message`. -/
structure JsError where
  code : Option String
  message : String
deriving DecidableEq, Repr

def networkErrorCodes : List String :=
  ["ENOTFOUND", "ETIMEDOUT", "ECONNREFUSED", "ECONNRESET",
   "ENETUNREACH", "EAI_AGAIN", "EHOSTUNREACH", "EPIPE"]

def networkErrorMessages : List String :=
  ["network", "fetch failed", "socket hang up", "ENOTFOUND",
   "ETIMEDOUT", "getaddrinfo", "connect ECONNREFUSED"]

/-- `isNetworkError(err)` from `runner.js`: false on null/undefined; true when the
`code` is a connectivity code, else when the lowercased message contains one of
the connectivity phrases. -/
def isNetworkError : Option JsError → Bool
  | none => false
  | some err =>
    if (match err.code with
        | some c => networkErrorCodes.contains c
        | none => false) then
      true
    else
      let message := lcString err.message
      networkErrorMessages.any (fun pattern => strIncludes message (lcString pattern))

/-! ## Configuration (`runner.js`, `CONFIG`) -/

structure Config where
  MAX_CRASH_RESTARTS : Nat
  CRASH_WINDOW_MS : Int
  MAX_NETWORK_RETRIES : Nat
  NETWORK_BACKOFF_BASE_MS : Nat
  NETWORK_BACKOFF_MAX_MS : Nat
deriving Repr

def CONFIG : Config :=
  { MAX_CRASH_RESTARTS := 3
    CRASH_WINDOW_MS := 60000
    MAX_NETWORK_RETRIES := 10
    NETWORK_BACKOFF_BASE_MS := 5000
    NETWORK_BACKOFF_MAX_MS := 60000 }

/-- `calculateBackoff(attempt, baseMs, maxMs) = min(baseMs * 2^(attempt-1), maxMs)`
(1-based attempt). -/
def calculateBackoff (attempt baseMs maxMs : Nat) : Nat :=
  min (baseMs * 2 ^ (attempt - 1)) maxMs

/-! ## Supervisor state (`runner.js`, module-level counters) -/

structure RestartState where
  crashRestartCount : Nat
  lastCrashTime : Int
  networkRetryCount : Nat
deriving DecidableEq, Repr

/-- One execution of the host entry point, as observed by the supervisor:
`thrown = none` is a clean completion, otherwise the thrown error; `time` is
`Date.now()` at the catch; `probes i` is the result of the i-th connectivity
probe should the network branch run for this failure. -/
structure Attempt where
  thrown : Option JsError
  time : Int
  probes : Nat → Bool

inductive SupOutcome
  | success
  | fatalCrash (exitCode : Nat)
  | fatalNetwork (exitCode : Nat)
deriving DecidableEq, Repr

/-- The `while (networkRetryCount < MAX_NETWORK_RETRIES)` loop body of
`waitForConnectivity`: increments the counter, probes, resets the counter to 0
on restored connectivity.  `fuel` bounds the iterations (the caller passes
`MAX_NETWORK_RETRIES`, which is exact). -/
def waitLoop (maxRetries : Nat) (probes : Nat → Bool) : Nat → Nat → Bool × Nat
  | count, 0 => (false, count)
  | count, fuel + 1 =>
    if count < maxRetries then
      let count' := count + 1
      if probes (count' - 1) then (true, 0)
      else waitLoop maxRetries probes count' fuel
    else (false, count)

/-- `waitForConnectivity()` from `runner.js`: resets `networkRetryCount` to 0,
then retries probes with backoff until connected or the retry budget is spent.
Only the `networkRetryCount` field of the supervisor state is ever assigned. -/
def waitForConnectivity (cfg : Config) (probes : Nat → Bool) (st : RestartState) :
    Bool × RestartState :=
  let r := waitLoop cfg.MAX_NETWORK_RETRIES probes 0 cfg.MAX_NETWORK_RETRIES
  (r.1, { st with networkRetryCount := r.2 })

/-- `runWithAutoRestart` from `runner.js`.  Consumes the list of host-run
outcomes; returns `none` only if the modelled outcome list runs out, otherwise
the terminal outcome, the final counters, and the number of restarts performed.
Network-classified failures go through `waitForConnectivity`; generic failures
reset the crash counter when outside the crash window, increment it, record the
timestamp, and terminate with `process.exit(1)` once it reaches the budget. -/
def runWithAutoRestart (cfg : Config) :
    List Attempt → RestartState → Nat → Option (SupOutcome × RestartState × Nat)
  | [], _, _ => none
  | a :: rest, st, restarts =>
    match a.thrown with
    | none => some (.success, st, restarts)
    | some err =>
      let now := a.time
      if isNetworkError (some err) then
        let w := waitForConnectivity cfg a.probes st
        if w.1 then runWithAutoRestart cfg rest w.2 (restarts + 1)
        else some (.fatalNetwork 1, w.2, restarts)
      else
        let st1 := if now - st.lastCrashTime > cfg.CRASH_WINDOW_MS then
            { st with crashRestartCount := 0 } else st
        let st2 := { st1 with crashRestartCount := st1.crashRestartCount + 1,
                              lastCrashTime := now }
        if st2.crashRestartCount ≥ cfg.MAX_CRASH_RESTARTS then
          some (.fatalCrash 1, st2, restarts)
        else
          runWithAutoRestart cfg rest st2 (restarts + 1)

/-! ## A small backtracking regex matcher

The validator rules in `blocklist.js` are JS regex literals.  `Re` is the
regex AST needed for those literals (character classes, concatenation,
alternation, greedy star); `reFirst` is a continuation-passing backtracking
matcher with JS preference order (left alternative first, greedy star), with a
step-depth fuel so the function is structurally recursive; the fuel passed by
the entry points strictly exceeds the possible backtracking depth. -/

inductive Re
  | eps
  | cls (p : Char → Bool)
  | seq (a b : Re)
  | alt (a b : Re)
  | star (r : Re)

def reSize : Re → Nat
  | .eps => 1
  | .cls _ => 1
  | .seq a b => reSize a + reSize b + 1
  | .alt a b => reSize a + reSize b + 1
  | .star r => reSize r + 1

/-- Try to match `re` at the head of `s`; on success feed the remaining suffix
to the continuation `k`.  Backtracking explores alternatives left to right and
star iterations greedily (an iteration must consume input), which is the JS
preference order. -/
def reFirst : Nat → Re → List Char → (List Char → Option (List Char)) →
    Option (List Char)
  | 0, _, _, _ => none
  | fuel + 1, re, s, k =>
    match re with
    | .eps => k s
    | .cls p =>
      match s with
      | [] => none
      | c :: rest => if p c then k rest else none
    | .seq a b => reFirst fuel a s (fun s' => reFirst fuel b s' k)
    | .alt a b => (reFirst fuel a s k) <|> (reFirst fuel b s k)
    | .star r =>
      (reFirst fuel r s (fun s' =>
        if s'.length < s.length then reFirst fuel (.star r) s' k else none)) <|> k s

def reFuel (re : Re) (s : List Char) : Nat :=
  (reSize re + 2) * (s.length + 2)

/-- JS `regex.test(s)`: the pattern matches somewhere in `s` (none of the
blocklist patterns is anchored). -/
def reTest (re : Re) (s : String) : Bool :=
  s.data.tails.any (fun t => (reFirst (reFuel re s.data) re t some).isSome)

/-- JS `s.match(regex with flag g)`, keeping only the lengths of the matches:
scan left to right, at each position take the preferred match if any and jump
past it, else advance one character. -/
def scanStep (re : Re) : Nat → List Char → List Nat
  | 0, _ => []
  | _ + 1, [] => []
  | fuel + 1, c :: rest =>
    match reFirst (reFuel re (c :: rest)) re (c :: rest) some with
    | none => scanStep re fuel rest
    | some s' =>
      let len := (c :: rest).length - s'.length
      if len = 0 then scanStep re fuel rest
      else len :: scanStep re fuel s'

def scanLens (re : Re) (s : List Char) : List Nat :=
  scanStep re (s.length + 1) s

/-! ### Atoms used by the blocklist patterns -/

def rchar (c : Char) : Re := .cls (fun x => x == c)

/-- A literal character under the `i` flag. -/
def richar (c : Char) : Re := .cls (fun x => x.toLower == c.toLower)

def rstr (s : String) : Re := s.data.foldr (fun c acc => .seq (rchar c) acc) .eps

def ristr (s : String) : Re := s.data.foldr (fun c acc => .seq (richar c) acc) .eps

def rplus (r : Re) : Re := .seq r (.star r)

def ralts : List Re → Re
  | [] => .cls (fun _ => false)
  | [r] => r
  | r :: rest => .alt r (ralts rest)

/-- JS `.` without the `s` flag: any character except a line terminator. -/
def rdot : Re := .cls (fun c =>
  !(c == Char.ofNat 10 || c == Char.ofNat 13 || c == Char.ofNat 0x2028 ||
    c == Char.ofNat 0x2029))

/-- JS `\s`. -/
def jsWhitespace (c : Char) : Bool :=
  c == ' ' || c == Char.ofNat 9 || c == Char.ofNat 10 || c == Char.ofNat 11 ||
  c == Char.ofNat 12 || c == Char.ofNat 13 || c == Char.ofNat 0xa0 ||
  c == Char.ofNat 0x1680 || (0x2000 ≤ c.toNat && c.toNat ≤ 0x200a) ||
  c == Char.ofNat 0x2028 || c == Char.ofNat 0x2029 || c == Char.ofNat 0x202f ||
  c == Char.ofNat 0x205f || c == Char.ofNat 0x3000 || c == Char.ofNat 0xfeff

def rws : Re := .cls jsWhitespace

def rdigit : Re := .cls Char.isDigit

def ralnum : Re := .cls (fun c => c.isAlpha || c.isDigit)

def quoteChar : Char := '\''

/-! ### `blocklist.js` rule patterns -/

/-- `/'[^']*'[^']*'/` -/
def nestedQuotesRe : Re :=
  .seq (rchar quoteChar) (.seq (.star (.cls (fun c => !(c == quoteChar))))
    (.seq (rchar quoteChar) (.seq (.star (.cls (fun c => !(c == quoteChar))))
      (rchar quoteChar))))

/-- `/\$\(|`(backtick)|\\n|\\r/` — the last two alternatives are the two-character
sequences backslash-n and backslash-r. -/
def shellExpansionRe : Re :=
  ralts [rstr "$(", rchar (Char.ofNat 96), rstr "\\n", rstr "\\r"]

/-- `/\\\\\\\\[A-Za-z0-9]|\/\/[A-Za-z0-9]+\/[A-Za-z0-9]/`: four literal
backslashes then an alphanumeric, or `//xs/x`. -/
def uncPathRe : Re :=
  .alt (.seq (rstr "\\\\\\\\") ralnum)
       (.seq (rstr "//") (.seq (rplus ralnum) (.seq (rchar '/') ralnum)))

/-- `/[A-Za-z]:\\[^ ]+|\/[^ ]+/g` used for the path-length scan. -/
def pathScanRe : Re :=
  .alt (.seq (.cls Char.isAlpha) (.seq (rchar ':') (.seq (rchar (Char.ofNat 92))
          (rplus (.cls (fun c => !(c == ' ')))))))
       (.seq (rchar '/') (rplus (.cls (fun c => !(c == ' ')))))

/-- `/dir.*\/s/i` -/
def dirRecursiveDetect : Re := .seq (ristr "dir") (.seq (.star rdot) (ristr "/s"))

/-- `/\*\.|\.json|\.md|\.txt|\.sh|\.toml|\.xml|\.cs|\.js|\.ts|\.py/i` -/
def dirRecursiveUnless : Re :=
  ralts [rstr "*.", ristr ".json", ristr ".md", ristr ".txt", ristr ".sh",
         ristr ".toml", ristr ".xml", ristr ".cs", ristr ".js", ristr ".ts",
         ristr ".py"]

/-- `/find.*(Users\/|\/c\/Users|\/home\/[^\/]+\/|\.claude)/i` -/
def findDetect : Re :=
  .seq (ristr "find") (.seq (.star rdot)
    (ralts [ristr "Users/", ristr "/c/Users",
            .seq (ristr "/home/") (.seq (rplus (.cls (fun c => !(c == '/'))))
              (rchar '/')),
            ristr ".claude"]))

/-- Pattern `-maxdepth|timeout`, flag `i`. -/
def findUnless : Re := ralts [ristr "-maxdepth", ristr "timeout"]

/-- `/tree.*(Users\/|\.claude|\/c\/Users|\/home)/i` -/
def treeDetect : Re :=
  .seq (ristr "tree") (.seq (.star rdot)
    (ralts [ristr "Users/", ristr ".claude", ristr "/c/Users", ristr "/home"]))

/-- Pattern `-L\s+\d+|-l`, flag `i`. -/
def treeUnless : Re :=
  ralts [.seq (ristr "-L") (.seq (rplus rws) (rplus rdigit)), ristr "-l"]

/-- `/git\s+(log|diff|show).*--all/i` -/
def gitAllDetect : Re :=
  .seq (ristr "git") (.seq (rplus rws)
    (.seq (ralts [ristr "log", ristr "diff", ristr "show"])
      (.seq (.star rdot) (ristr "--all"))))

/-- Pattern `-n\s+\d+|--max-count`, flag `i`. -/
def gitAllUnless : Re :=
  ralts [.seq (ristr "-n") (.seq (rplus rws) (rplus rdigit)), ristr "--max-count"]

/-! ### `blocklist.js` rule tables and `validateCommand` -/

structure CygpathRule where
  name : String
  pattern : Re
  reason : String

structure SafetyRule where
  name : String
  detect : Re
  unlessRe : Re
  reason : String

def cygpathRules : List CygpathRule :=
  [⟨"nested-quotes", nestedQuotesRe,
    "Path contains nested quotes (cygpath crash risk) - use Read/Glob tools instead"⟩,
   ⟨"shell-expansion", shellExpansionRe,
    "Path contains shell expansion (cygpath crash risk) - use Read/Glob tools instead"⟩,
   ⟨"unc-path", uncPathRe,
    "UNC network path detected (cygpath crash risk) - map drive first or use local path"⟩]

def safetyRules : List SafetyRule :=
  [⟨"dir-recursive", dirRecursiveDetect, dirRecursiveUnless,
    "dir /s without file pattern - use dir \"path\\*.ext\" /s or Glob tool"⟩,
   ⟨"find-no-maxdepth", findDetect, findUnless,
    "find on user directory without -maxdepth - add -maxdepth N or use Glob tool"⟩,
   ⟨"tree-no-depth", treeDetect, treeUnless,
    "tree without depth limit - add -L N or use ls"⟩,
   ⟨"git-all-no-limit", gitAllDetect, gitAllUnless,
    "git --all without limit - add -n N or --max-count=N"⟩]

/-- `config.maxPathLength` from `blocklist.js`. -/
def maxPathLength : Nat := 260

def unbalancedReason : String :=
  "Command has unbalanced quotes (cygpath crash risk) - ensure quotes are paired"

def pathTooLongReason : String :=
  "Path exceeds 260 characters (cygpath crash risk) - use shorter paths"

structure ValidationResult where
  allowed : Bool
  reason : Option String
deriving DecidableEq, Repr

/-- `validateCommand` from `blocklist.js`: empty input allowed; odd number of
single quotes denied; then the cygpath crash rules in order; then the path
length scan; then the hang-prevention rules (`detect` and not `unless`) in
order. -/
def validateCommand (command : String) : ValidationResult :=
  if command = "" then ⟨true, none⟩
  else if command.data.count quoteChar % 2 ≠ 0 then ⟨false, some unbalancedReason⟩
  else
    match cygpathRules.find? (fun rule => reTest rule.pattern command) with
    | some rule => ⟨false, some rule.reason⟩
    | none =>
      if (scanLens pathScanRe command.data).any (fun len => len > maxPathLength) then
        ⟨false, some pathTooLongReason⟩
      else
        match safetyRules.find? (fun rule =>
            reTest rule.detect command && !(reTest rule.unlessRe command)) with
        | some rule => ⟨false, some rule.reason⟩
        | none => ⟨true, none⟩

/-! ## Path Translator (`runner.js`, `windowsToPosix`) -/

/-- First `replace`: `/\\/g` → `/`. -/
def replaceBackslashes (l : List Char) : List Char :=
  l.map (fun c => if c = Char.ofNat 92 then '/' else c)

/-- Second `replace`: `/^([A-Z]):/i` → `/$1` (keep the letter, drop the colon,
prepend a slash). -/
def driveToSlash : List Char → List Char
  | c1 :: c2 :: rest =>
    if c1.isAlpha ∧ c2 = ':' then '/' :: c1 :: rest else c1 :: c2 :: rest
  | l => l

/-- Third `replace`: `/^\/[A-Z]/i` → lowercase of the two matched characters
(`'/'.toLowerCase()` is `'/'` itself). -/
def lowerDrive : List Char → List Char
  | c1 :: c2 :: rest =>
    if c1 = '/' ∧ c2.isAlpha then c1 :: c2.toLower :: rest else c1 :: c2 :: rest
  | l => l

/-- `windowsToPosix` from `runner.js`: the three chained `replace` calls. -/
def windowsToPosix (s : String) : String :=
  ⟨lowerDrive (driveToSlash (replaceBackslashes s.data))⟩

/-- Whether the second `replace` of `windowsToPosix` would fire: a leading
ASCII letter followed by a colon. -/
def driveGuard : List Char → Bool
  | c1 :: c2 :: _ => c1.isAlpha && c2 == ':'
  | _ => false

/-- Whether the third `replace` of `windowsToPosix` would change the string: a
leading slash followed by an ASCII letter whose lowercasing differs. -/
def slashUpperGuard : List Char → Bool
  | c1 :: c2 :: _ => c1 == '/' && c2.isAlpha && !(c2.toLower == c2)
  | _ => false

/-! ## Lifecycle Hook Layer (`runner.js`, hooks 4 and 5) -/

/-- The values relevant to the kill hooks: the wrapped code either passes the
original primitive's return value through or returns JS `undefined`. -/
inductive JsValue
  | undef
  | bool (b : Bool)
  | num (n : Int)
deriving DecidableEq, Repr

/-- Outcome of invoking the original (unhooked) termination primitive. -/
inductive PrimOutcome
  | ok (v : JsValue)
  | err (e : JsError)
deriving DecidableEq, Repr

deriving instance DecidableEq for Except

structure KillResult where
  /-- What the wrapped primitive returns (or rethrows). -/
  result : Except JsError JsValue
  /-- Whether the `taskkill /T /F /PID` fallback was invoked. -/
  taskkillRan : Bool
deriving DecidableEq, Repr

/-- Hook 4, `process.kill`: on `EPERM` run the taskkill fallback (its own
failure swallowed — both arms of the inner try/catch return `undefined`), on
`ESRCH` treat as success, otherwise rethrow.  `taskkillFails` models whether
the `execSync('taskkill ...')` call throws. -/
def processKillHook (orig : PrimOutcome) (taskkillFails : Bool) : KillResult :=
  match orig with
  | .ok v => ⟨.ok v, false⟩
  | .err e =>
    if e.code = some "EPERM" then
      if taskkillFails then ⟨.ok .undef, true⟩ else ⟨.ok .undef, true⟩
    else if e.code = some "ESRCH" then ⟨.ok .undef, false⟩
    else ⟨.error e, false⟩

/-- The success-case return value of the unhooked `process.kill`.  The
original primitive is a Node runtime collaborator, not part of this
repository: `process.kill(pid[, signal])` returns `true` when the signal is
sent successfully. -/
def processKillSuccessValue : JsValue := .bool true

/-- The success-case return value of the unhooked
`ChildProcess.prototype.kill`: a boolean, `true` when the signal was
delivered. -/
def childProcessKillSuccessValue : JsValue := .bool true

/-- JS truthiness of `this.pid` in hook 5 (`undefined` and `0` are falsy). -/
def pidTruthy : Option Nat → Bool
  | some p => p != 0
  | none => false

/-- Hook 5, `ChildProcess.prototype.kill`: on `EPERM` or `ESRCH` run the
taskkill fallback when a truthy `pid` is available (fallback failure swallowed)
and return `undefined`; otherwise rethrow. -/
def childProcessKillHook (pid : Option Nat) (orig : PrimOutcome)
    (taskkillFails : Bool) : KillResult :=
  match orig with
  | .ok v => ⟨.ok v, false⟩
  | .err e =>
    if e.code = some "EPERM" || e.code = some "ESRCH" then
      if pidTruthy pid then
        if taskkillFails then ⟨.ok .undef, true⟩ else ⟨.ok .undef, true⟩
      else ⟨.ok .undef, false⟩
    else ⟨.error e, false⟩

/-! ## JSON model (for the Permission Hook Handler and the settings hook) -/

inductive Json
  | null
  | bool (b : Bool)
  | num (n : Int)
  | str (s : String)
  | arr (elems : List Json)
  | obj (fields : List (String × Json))

mutual

/-- Does the key occur anywhere in the JSON tree (as an object key)? -/
def Json.hasKeyDeep (k : String) : Json → Bool
  | .obj fields => hasKeyFields k fields
  | .arr elems => hasKeyElems k elems
  | _ => false

def hasKeyFields (k : String) : List (String × Json) → Bool
  | [] => false
  | (k', v) :: rest => k' == k || Json.hasKeyDeep k v || hasKeyFields k rest

def hasKeyElems (k : String) : List Json → Bool
  | [] => false
  | v :: rest => Json.hasKeyDeep k v || hasKeyElems k rest

end

/-! ## Permission Hook Handler (`runner.js`, `handlePermissionRequest`) -/

/-- The parsed shape of a permission request: `tool_name` and `cwd` may be
absent from the JSON. -/
structure PermissionRequest where
  tool_name : Option String
  cwd : Option String

/-- The wrapped return value: `passthrough` is the empty-string return,
`payload j` is `JSON.stringify j`. -/
inductive HookOutput
  | passthrough
  | payload (j : Json)

structure HookResponse where
  output : HookOutput
  /-- Number of `notifier.notify` calls made. -/
  notifications : Nat

def excludedTools : List String := ["AskUserQuestion", "ExitPlanMode"]

def allowDecisionPayload : Json :=
  .obj [("hookSpecificOutput",
    .obj [("hookEventName", .str "PermissionRequest"),
          ("decision", .obj [("behavior", .str "allow")])])]

/-- `handlePermissionRequest`: input is the result of `JSON.parse` on the raw
stdin string (`Except` error means the parse threw).  Excluded tools notify
once and pass through; everything else — including any parse failure — gets the
structured allow decision. -/
def handlePermissionRequest : Except Unit PermissionRequest → HookResponse
  | .error _ => ⟨.payload allowDecisionPayload, 0⟩
  | .ok req =>
    match req.tool_name with
    | some toolName =>
      if excludedTools.contains toolName then ⟨.passthrough, 1⟩
      else ⟨.payload allowDecisionPayload, 0⟩
    | none => ⟨.payload allowDecisionPayload, 0⟩

/-! ## Blocked synthetic subprocess (`runner.js`, `createBlockedChildProcess`) -/

inductive ChildEvent
  | stderrData (payload : String)
  | stdoutClose
  | stderrClose
  | exitClose (code : Nat)
deriving DecidableEq, Repr

structure BlockedChild where
  pid : Nat
  killed : Bool
  /-- Events emitted synchronously while the constructor runs (before the
  caller can attach listeners). -/
  syncEvents : List ChildEvent
  /-- Events scheduled with `process.nextTick`, delivered in order on the next
  cooperative-scheduling turn. -/
  nextTickEvents : List ChildEvent
deriving DecidableEq, Repr

/-- `createBlockedChildProcess(reason)`: nothing is emitted synchronously; on
the next tick one stderr `data` event with the decorated reason, the stream
`close` events, and the child `close` with exit code 1. -/
def createBlockedChildProcess (reason : String) : BlockedChild :=
  { pid := 0
    killed := false
    syncEvents := []
    nextTickEvents :=
      [ .stderrData ("[blocked] " ++ reason ++ "\n"),
        .stdoutClose, .stderrClose, .exitClose 1 ] }

def isStderrData : ChildEvent → Bool
  | .stderrData _ => true
  | _ => false

def isExitClose : ChildEvent → Bool
  | .exitClose _ => true
  | _ => false

/-! ## Tracked Subprocess Set (`runner.js`: `childProcesses`, spawn hook,
`killChildren`)

The bookkeeping is modelled as a transition system: `tracked` is the
`childProcesses` set (keyed by pid), `alive` the set of OS-alive pids. -/

structure TrackState where
  tracked : Finset ℕ
  alive : Finset ℕ
deriving DecidableEq

inductive TrackOp
  | /-- The spawn hook creates a real subprocess: tracked iff `child.pid` is
       truthy, and a fresh OS process comes alive. -/
    spawnReal (pid : ℕ)
  | /-- A synthetic (blocked or hook-handling) child: never tracked, no OS
       process. -/
    spawnSynthetic
  | /-- The subprocess's own `exit` event: the process died and the registered
       handler deletes it from the set. -/
    childExit (pid : ℕ)
  | /-- The subprocess's own `error` event: the registered handler deletes it
       from the set. -/
    childError (pid : ℕ)
  | /-- `killChildren`: `taskkill /T /F` every tracked pid (already-dead
       targets ignored), then `childProcesses.clear()`. -/
    killChildren
  | /-- A supervisor restart: does not touch the set. -/
    supervisorRestart
deriving DecidableEq, Repr

def trackStep (s : TrackState) : TrackOp → TrackState
  | .spawnReal pid =>
    if pid ≠ 0 then
      { tracked := insert pid s.tracked, alive := insert pid s.alive }
    else s
  | .spawnSynthetic => s
  | .childExit pid => { tracked := s.tracked.erase pid, alive := s.alive.erase pid }
  | .childError pid => { tracked := s.tracked.erase pid, alive := s.alive }
  | .killChildren => { tracked := ∅, alive := s.alive \ s.tracked }
  | .supervisorRestart => s

def runOps (init : TrackState) (ops : List TrackOp) : TrackState :=
  ops.foldl trackStep init

/-- The operations that can remove entries from the Tracked Subprocess Set. -/
def removesEntries : TrackOp → Bool
  | .childExit _ => true
  | .childError _ => true
  | .killChildren => true
  | _ => false

/-! ## Settings-file read hook (`runner.js`, hook 7: `fs.readFileSync`) -/

/-- JS truthiness of a JSON-derived value. -/
def truthy : Json → Bool
  | .null => false
  | .bool b => b
  | .num n => n != 0
  | .str s => !(s == "")
  | .arr _ => true
  | .obj _ => true

def getField (fields : List (String × Json)) (k : String) : Option Json :=
  (fields.find? (fun f => f.1 == k)).map (fun f => f.2)

/-- JS property assignment on a plain object parsed from JSON (whose keys are
unique): update the existing key in place (preserving key order, as
`JSON.stringify` does) or append a new one. -/
def setField : List (String × Json) → String → Json → List (String × Json)
  | [], k, v => [(k, v)]
  | f :: rest, k, v => if f.1 == k then (k, v) :: rest else f :: setField rest k v

/-- JS property read on a JSON-derived value: `none` = TypeError (reading a
property of `null`), `some none` = `undefined`, `some (some v)` = the value.
Strings and arrays expose `length`. -/
def jsProp : Json → String → Option (Option Json)
  | .null, _ => none
  | .obj fields, k => some (getField fields k)
  | .arr elems, k =>
    if k == "length" then some (some (.num elems.length)) else some none
  | .str s, k =>
    if k == "length" then some (some (.num s.length)) else some none
  | _, _ => some none

/-- The injected `hooks.PermissionRequest` entry:
`[{ hooks: [{ type: 'command', command: 'node -e "__RUNNER_PERMISSION_HOOK__"' }] }]`. -/
def markerHookEntry : Json :=
  .arr [.obj [("hooks",
    .arr [.obj [("type", .str "command"),
                ("command", .str "node -e \"__RUNNER_PERMISSION_HOOK__\"")]])]]

/-- The guard `settings.hooks?.PermissionRequest?.length` as a truthiness test:
`none` = the read threw (only possible when `settings` is `null`), otherwise
`some` of whether the chain produced a truthy length. -/
def prLengthTruthy (settings : Json) : Option Bool :=
  match jsProp settings "hooks" with
  | none => none
  | some none => some false
  | some (some hooksVal) =>
    match hooksVal with
    | .null => some false
    | _ =>
      match jsProp hooksVal "PermissionRequest" with
      | none => none
      | some none => some false
      | some (some prVal) =>
        match prVal with
        | .null => some false
        | _ =>
          match jsProp prVal "length" with
          | none => none
          | some none => some false
          | some (some lenVal) => some (truthy lenVal)

/-- The `try` body of hook 7 after a successful `JSON.parse`, at the level of
JSON values: `some v` means the hook returns `JSON.stringify v`; `none` means
an exception was thrown inside the `try` and the hook returns the original
content unchanged.  The module runs in strict mode (it is an ES module), so a
property assignment on a primitive throws, and `JSON.stringify` drops non-index
properties assigned on arrays. -/
def injectResult (settings : Json) : Option Json :=
  match prLengthTruthy settings with
  | none => none
  | some true => some settings
  | some false =>
    match settings with
    | .obj fields =>
      let hooksField := getField fields "hooks"
      let hooksVal : Json :=
        match hooksField with
        | some hv => if truthy hv then hv else .obj []
        | none => .obj []
      match hooksVal with
      | .obj hookFields =>
        some (.obj (setField fields "hooks"
          (.obj (setField hookFields "PermissionRequest" markerHookEntry))))
      | .arr elems => some (.obj (setField fields "hooks" (.arr elems)))
      | _ => none
    | .arr elems => some (.arr elems)
    | _ => none

/-- Hook 7 at the parse level, for a read of the settings path: input is the
result of `JSON.parse` on the file content (`none` = the parse threw).  Output
`none` means the original content is returned byte-for-byte; `some v` means the
returned content is `JSON.stringify v`. -/
def settingsReadResult : Option Json → Option Json
  | none => none
  | some settings => injectResult settings

/-- The shapes of the `hooks` field for which the injection attempt neither
throws (truthy primitive) nor is silently dropped by `JSON.stringify`
(array): absent, a plain object, or a falsy value (replaced by `{}`). -/
def hooksFieldOk : Option Json → Bool
  | none => true
  | some (.obj _) => true
  | some (.arr _) => false
  | some hv => !truthy hv

/-- The object fields the injection writes into: the existing `hooks` object,
or the fresh `{}` substituted for an absent/falsy `hooks`. -/
def hooksObjFields (fields : List (String × Json)) : List (String × Json) :=
  match getField fields "hooks" with
  | some (.obj hookFields) => hookFields
  | _ => []

/-- The conjunction of the `validateCommand` stages that run before the
hang-pattern (safety) rules: non-empty input, balanced quotes, no cygpath
crash rule, no over-long path. -/
def passesPriorChecks (s : String) : Bool :=
  !(s == "") && (s.data.count quoteChar % 2 == 0) &&
  !(cygpathRules.any (fun rule => reTest rule.pattern s)) &&
  !((scanLens pathScanRe s.data).any (fun len => len > maxPathLength))

/-! ## Theorems -/

/-- One unfolding of the supervisor loop on a generic (non-network) failure:
window check, counter increment, timestamp, budget comparison. -/
theorem runStep_generic (cfg : Config) (e : JsError) (t : Int) (p : Nat → Bool)
    (rest : List Attempt) (st : RestartState) (r : Nat)
    (hn : isNetworkError (some e) = false) :
    runWithAutoRestart cfg (⟨some e, t, p⟩ :: rest) st r =
      (if (if t - st.lastCrashTime > cfg.CRASH_WINDOW_MS then 1 else st.crashRestartCount + 1)
          ≥ cfg.MAX_CRASH_RESTARTS then
        some (.fatalCrash 1,
          ⟨(if t - st.lastCrashTime > cfg.CRASH_WINDOW_MS then 1 else st.crashRestartCount + 1),
            t, st.networkRetryCount⟩, r)
      else
        runWithAutoRestart cfg rest
          ⟨(if t - st.lastCrashTime > cfg.CRASH_WINDOW_MS then 1 else st.crashRestartCount + 1),
            t, st.networkRetryCount⟩ (r + 1)) := by
  simp only [runWithAutoRestart, hn, Bool.false_eq_true, if_false]
  split <;> rfl

/-- C1: with crash budget 3 and window 60000 ms, a host entry point that
always throws a non-network error and whose crashes all fall within the window
is restarted exactly twice; the third failure increments the counter to the
budget and the supervisor terminates with `process.exit(1)` (a fatal
diagnostic, non-zero status) instead of restarting.  The final state records
counter 3 and the last crash's timestamp. -/
theorem supervisor_exhausts_crash_budget :
    CONFIG.MAX_CRASH_RESTARTS = 3 ∧ CONFIG.CRASH_WINDOW_MS = 60000 ∧
    ∀ (e1 e2 e3 : JsError) (t1 t2 t3 : Int) (p1 p2 p3 : Nat → Bool)
      (rest : List Attempt),
      isNetworkError (some e1) = false →
      isNetworkError (some e2) = false →
      isNetworkError (some e3) = false →
      t2 - t1 ≤ CONFIG.CRASH_WINDOW_MS →
      t3 - t2 ≤ CONFIG.CRASH_WINDOW_MS →
      runWithAutoRestart CONFIG
        (⟨some e1, t1, p1⟩ :: ⟨some e2, t2, p2⟩ :: ⟨some e3, t3, p3⟩ :: rest)
        ⟨0, 0, 0⟩ 0
        = some (.fatalCrash 1, ⟨3, t3, 0⟩, 2) := by
  refine ⟨rfl, rfl, ?_⟩
  intro e1 e2 e3 t1 t2 t3 p1 p2 p3 rest h1 h2 h3 h12 h23
  simp only [CONFIG] at h12 h23
  rw [runStep_generic _ _ _ _ _ _ _ h1]
  norm_num [CONFIG]
  rw [runStep_generic _ _ _ _ _ _ _ h2]
  norm_num [CONFIG, if_neg (show ¬ t2 - t1 > (60000 : Int) by omega)]
  rw [runStep_generic _ _ _ _ _ _ _ h3]
  norm_num [CONFIG, if_neg (show ¬ t3 - t2 > (60000 : Int) by omega)]

/-- Witness for C1 at a concrete non-network error and timestamps 1000, 2000,
3000 (all within the window). -/
theorem supervisor_exhausts_crash_budget_witness :
    runWithAutoRestart CONFIG
      [⟨some ⟨some "ERR_MODULE_NOT_FOUND", "Cannot find module"⟩, 1000, fun _ => false⟩,
       ⟨some ⟨some "ERR_MODULE_NOT_FOUND", "Cannot find module"⟩, 2000, fun _ => false⟩,
       ⟨some ⟨some "ERR_MODULE_NOT_FOUND", "Cannot find module"⟩, 3000, fun _ => false⟩]
      ⟨0, 0, 0⟩ 0
      = some (.fatalCrash 1, ⟨3, 3000, 0⟩, 2) :=
  supervisor_exhausts_crash_budget.2.2 _ _ _ 1000 2000 3000 _ _ _ []
    (by decide) (by decide) (by decide) (by decide) (by decide)

/-- C2: the supervisor's network branch (`waitForConnectivity`) assigns only
`networkRetryCount` and leaves `crashRestartCount` and `lastCrashTime`
untouched; more generally, any run whose failures are all network-classified
preserves both generic-crash fields; and in the concrete scenario of three
connectivity errors followed by a clean completion, with retry budget 10, the
supervisor restarts 3 times, never consumes the generic crash budget, and ends
in success. -/
theorem network_failures_leave_crash_budget :
    (∀ (cfg : Config) (probes : Nat → Bool) (st : RestartState),
       (waitForConnectivity cfg probes st).2.crashRestartCount = st.crashRestartCount ∧
       (waitForConnectivity cfg probes st).2.lastCrashTime = st.lastCrashTime) ∧
    (∀ (cfg : Config) (attempts : List Attempt),
       (∀ a ∈ attempts, a.thrown = none ∨ isNetworkError a.thrown = true) →
       ∀ (st : RestartState) (r : Nat) (out : SupOutcome) (st' : RestartState) (r' : Nat),
         runWithAutoRestart cfg attempts st r = some (out, st', r') →
         st'.crashRestartCount = st.crashRestartCount ∧
         st'.lastCrashTime = st.lastCrashTime) ∧
    runWithAutoRestart CONFIG
      [⟨some ⟨some "ECONNREFUSED", "connect ECONNREFUSED 104.18.2.205:443"⟩, 0, fun _ => true⟩,
       ⟨some ⟨some "ECONNREFUSED", "connect ECONNREFUSED 104.18.2.205:443"⟩, 0, fun _ => true⟩,
       ⟨some ⟨some "ECONNREFUSED", "connect ECONNREFUSED 104.18.2.205:443"⟩, 0, fun _ => true⟩,
       ⟨none, 0, fun _ => true⟩] ⟨0, 0, 0⟩ 0
      = some (.success, ⟨0, 0, 0⟩, 3) := by
  refine ⟨fun cfg probes st => ⟨rfl, rfl⟩, ?_, by decide⟩
  intro cfg attempts hall
  induction attempts with
  | nil =>
    intro st r out st' r' h
    simp [runWithAutoRestart] at h
  | cons a rest ih =>
    intro st r out st' r' h
    have ha := hall a (List.mem_cons_self a rest)
    rcases hthr : a.thrown with _ | e
    · simp only [runWithAutoRestart, hthr, Option.some.injEq, Prod.mk.injEq] at h
      obtain ⟨-, h2, -⟩ := h
      subst h2
      exact ⟨rfl, rfl⟩
    · rw [hthr] at ha
      have hnet : isNetworkError (some e) = true := by
        rcases ha with ha | ha
        · exact absurd ha (by simp)
        · exact ha
      simp only [runWithAutoRestart, hthr, hnet, if_true] at h
      split at h
      · have := ih (fun a' ha' => hall a' (List.mem_cons_of_mem a ha')) _ _ _ _ _ h
        simpa [waitForConnectivity] using this
      · simp only [Option.some.injEq, Prod.mk.injEq] at h
        obtain ⟨-, h2, -⟩ := h
        subst h2
        simp [waitForConnectivity]

/-- Witness for C2's trace-level part: one connectivity error (probe succeeds)
then a clean run, from a state with crash counter 5 and timestamp 42; both
generic-crash fields are preserved. -/
theorem network_failures_leave_crash_budget_witness :
    (⟨5, 42, 0⟩ : RestartState).crashRestartCount =
      (⟨5, 42, 3⟩ : RestartState).crashRestartCount ∧
    (⟨5, 42, 0⟩ : RestartState).lastCrashTime =
      (⟨5, 42, 3⟩ : RestartState).lastCrashTime :=
  network_failures_leave_crash_budget.2.1 CONFIG
    [⟨some ⟨some "ENOTFOUND", "getaddrinfo ENOTFOUND api.anthropic.com"⟩, 7, fun _ => true⟩,
     ⟨none, 9, fun _ => true⟩]
    (by decide) ⟨5, 42, 3⟩ 0 .success ⟨5, 42, 0⟩ 1 (by decide)

/-- C3: the unbalanced-quote count check runs before every pattern rule: any
command with an odd number of single quotes is denied with the
unbalanced-quotes reason, unconditionally; and any command with an even
single-quote count that matches the nested-quote pattern is denied with the
nested-quotes reason (the first cygpath rule). -/
theorem unbalanced_quotes_precede_pattern_rules :
    (∀ s : String, s.data.count quoteChar % 2 = 1 →
       validateCommand s = ⟨false, some unbalancedReason⟩) ∧
    (∀ s : String, s.data.count quoteChar % 2 = 0 → reTest nestedQuotesRe s = true →
       validateCommand s =
         ⟨false, some "Path contains nested quotes (cygpath crash risk) - use Read/Glob tools instead"⟩) := by
  constructor
  · intro s h
    have hs : ¬ s = "" := by
      intro he
      subst he
      exact absurd h (by decide)
    simp [validateCommand, hs, h]
  · intro s heven hmatch
    have hs : ¬ s = "" := by
      intro he
      subst he
      exact absurd hmatch (by decide)
    simp [validateCommand, hs, heven, cygpathRules, List.find?, hmatch]

/-- Witness for C3: the three-quote command is denied for unbalanced quotes,
and the nested-quote shape from the spec is denied for nested quotes. -/
theorem unbalanced_quotes_precede_pattern_rules_witness :
    validateCommand "echo '''" = ⟨false, some unbalancedReason⟩ ∧
    validateCommand "'a'\"b\"'c'" =
      ⟨false, some "Path contains nested quotes (cygpath crash risk) - use Read/Glob tools instead"⟩ :=
  ⟨unbalanced_quotes_precede_pattern_rules.1 _ (by decide),
   unbalanced_quotes_precede_pattern_rules.2 _ (by decide) (by decide)⟩

/-- Exhaustive case analysis of `validateCommand`'s result: allowed (and then
no hang rule fires), or denied with the unbalanced-quotes reason, a cygpath
rule's reason, the path-length reason, or the first firing hang rule's
reason. -/
theorem validateCommand_cases (s : String) :
    (validateCommand s = ⟨true, none⟩ ∧
       ∀ r ∈ safetyRules, ¬(reTest r.detect s = true ∧ reTest r.unlessRe s = false)) ∨
    validateCommand s = ⟨false, some unbalancedReason⟩ ∨
    (∃ c ∈ cygpathRules, validateCommand s = ⟨false, some c.reason⟩) ∨
    validateCommand s = ⟨false, some pathTooLongReason⟩ ∨
    (∃ r ∈ safetyRules, validateCommand s = ⟨false, some r.reason⟩ ∧
       reTest r.detect s = true ∧ reTest r.unlessRe s = false) := by
  by_cases hs : s = ""
  · left
    refine ⟨by simp [validateCommand, hs], ?_⟩
    subst hs
    decide
  by_cases hq : s.data.count quoteChar % 2 = 0
  case neg =>
    right; left
    simp [validateCommand, hs, hq]
  case pos =>
  rcases hfind : cygpathRules.find? (fun rule => reTest rule.pattern s) with _ | c
  case some =>
    right; right; left
    exact ⟨c, List.mem_of_find?_eq_some hfind, by simp [validateCommand, hs, hq, hfind]⟩
  case none =>
  by_cases hpath : (scanLens pathScanRe s.data).any (fun len => len > maxPathLength) = true
  · right; right; right; left
    simp [validateCommand, hs, hq, hfind, hpath]
  have hpf : (scanLens pathScanRe s.data).any (fun len => len > maxPathLength) = false := by
    simpa using hpath
  rcases hfind2 : safetyRules.find? (fun rule =>
      reTest rule.detect s && !(reTest rule.unlessRe s)) with _ | r
  · left
    refine ⟨by simp [validateCommand, hs, hq, hfind, hpf, hfind2], ?_⟩
    rw [List.find?_eq_none] at hfind2
    intro r hr hfire
    have := hfind2 r hr
    simp [hfire.1, hfire.2] at this
  · right; right; right; right
    have hp := List.find?_some hfind2
    simp only [Bool.and_eq_true, Bool.not_eq_true'] at hp
    exact ⟨r, List.mem_of_find?_eq_some hfind2,
      by simp [validateCommand, hs, hq, hfind, hpf, hfind2], hp.1, hp.2⟩

/-- C4: a hang-pattern rule fires exactly when its `detect` pattern matches
and its `unless` exemption does not: (1) whenever some hang rule has `detect`
matching and `unless` not matching, the command is denied; (2) once the
earlier stages pass, the command is denied iff such a rule exists; (3) a hang
rule's reason is only ever surfaced when its own `detect` matched and its
`unless` did not; and concretely `git log --all` is denied while
`git log --all -n 50` is allowed. -/
theorem hang_rules_fire_iff_detect_and_not_unless :
    (∀ s : String,
       (∃ r ∈ safetyRules, reTest r.detect s = true ∧ reTest r.unlessRe s = false) →
       (validateCommand s).allowed = false) ∧
    (∀ s : String, passesPriorChecks s = true →
       (((validateCommand s).allowed = false) ↔
         ∃ r ∈ safetyRules, reTest r.detect s = true ∧ reTest r.unlessRe s = false)) ∧
    (∀ (s : String) (r : SafetyRule), r ∈ safetyRules →
       (validateCommand s).reason = some r.reason →
       reTest r.detect s = true ∧ reTest r.unlessRe s = false) ∧
    validateCommand "git log --all" =
      ⟨false, some "git --all without limit - add -n N or --max-count=N"⟩ ∧
    validateCommand "git log --all -n 50" = ⟨true, none⟩ := by
  refine ⟨?_, ?_, ?_, by decide, by decide⟩
  · intro s hex
    rcases validateCommand_cases s with ⟨_, hnone⟩ | h | ⟨c, hc, h⟩ | h | ⟨r, hr, h, _, _⟩
    · obtain ⟨r, hr, hfire⟩ := hex
      exact absurd hfire (hnone r hr)
    · rw [h]
    · rw [h]
    · rw [h]
    · rw [h]
  · intro s hp
    simp only [passesPriorChecks, Bool.and_eq_true, Bool.not_eq_true', beq_eq_false_iff_ne,
      beq_iff_eq, List.any_eq_false] at hp
    obtain ⟨⟨⟨h1, h2⟩, h3⟩, h4⟩ := hp
    have hcyg : cygpathRules.find? (fun rule => reTest rule.pattern s) = none := by
      rw [List.find?_eq_none]
      intro x hx
      simp [h3 x hx]
    have hlen : (scanLens pathScanRe s.data).any (fun len => len > maxPathLength) = false := by
      rw [List.any_eq_false]
      intro x hx
      simpa using h4 x hx
    rcases hfind2 : safetyRules.find? (fun rule =>
        reTest rule.detect s && !(reTest rule.unlessRe s)) with _ | r
    · have hres : validateCommand s = ⟨true, none⟩ := by
        simp [validateCommand, h1, h2, hcyg, hlen, hfind2]
      rw [hres]
      simp only [List.find?_eq_none] at hfind2
      constructor
      · intro hfalse
        exact absurd hfalse (by decide)
      · rintro ⟨rule, hmem, hdet, hunl⟩
        have := hfind2 rule hmem
        simp [hdet, hunl] at this
    · have hres : validateCommand s = ⟨false, some r.reason⟩ := by
        simp [validateCommand, h1, h2, hcyg, hlen, hfind2]
      rw [hres]
      have hpred := List.find?_some hfind2
      simp only [Bool.and_eq_true, Bool.not_eq_true'] at hpred
      exact ⟨fun _ => ⟨r, List.mem_of_find?_eq_some hfind2, hpred.1, hpred.2⟩, fun _ => rfl⟩
  · intro s r hr hres
    have hreason_notin :
        ∀ rr ∈ safetyRules, rr.reason ≠ unbalancedReason ∧ rr.reason ≠ pathTooLongReason ∧
          ∀ c ∈ cygpathRules, rr.reason ≠ c.reason := by decide
    rcases validateCommand_cases s with ⟨h, _⟩ | h | ⟨c, hc, h⟩ | h | ⟨r', hr', h, hdet, hunl⟩
    · rw [h] at hres
      exact absurd hres (by simp)
    · rw [h] at hres
      simp only [Option.some.injEq] at hres
      exact absurd hres (Ne.symm (hreason_notin r hr).1)
    · rw [h] at hres
      simp only [Option.some.injEq] at hres
      exact absurd hres (Ne.symm ((hreason_notin r hr).2.2 c hc))
    · rw [h] at hres
      simp only [Option.some.injEq] at hres
      exact absurd hres (Ne.symm (hreason_notin r hr).2.1)
    · rw [h] at hres
      simp only [Option.some.injEq] at hres
      simp only [safetyRules, List.mem_cons, List.not_mem_nil, or_false] at hr hr'
      rcases hr with rfl | rfl | rfl | rfl <;> rcases hr' with rfl | rfl | rfl | rfl <;>
        first
          | exact absurd hres (by decide)
          | exact ⟨hdet, hunl⟩

/-- Witness for C4: `git log --all` passes the earlier validation stages, and
the denial equivalence instantiated there. -/
theorem hang_rules_fire_iff_detect_and_not_unless_witness :
    passesPriorChecks "git log --all" = true ∧
    (((validateCommand "git log --all").allowed = false) ↔
      ∃ r ∈ safetyRules, reTest r.detect "git log --all" = true ∧
        reTest r.unlessRe "git log --all" = false) :=
  ⟨by decide, hang_rules_fire_iff_detect_and_not_unless.2.1 "git log --all" (by decide)⟩

/-- C5 amended: for both wrapped termination primitives, a successful call
passes the original return value through exactly; an `EPERM` failure triggers
the taskkill tree-termination fallback (for the subprocess handle, via its
truthy process identity), with the fallback's own failure swallowed and the
call treated as success; an `ESRCH` failure is treated as success; any other
failure propagates unchanged; and every recovered case returns the fixed
value `undefined` — which does not equal the unhooked primitives'
success-case return value `true`, contrary to the unamended claim (see the
counterexample). -/
theorem kill_hooks_error_recovery :
    (∀ (v : JsValue) (tk : Bool), processKillHook (.ok v) tk = ⟨.ok v, false⟩) ∧
    (∀ (e : JsError) (tk : Bool), e.code = some "EPERM" →
       processKillHook (.err e) tk = ⟨.ok .undef, true⟩) ∧
    (∀ (e : JsError) (tk : Bool), e.code = some "ESRCH" →
       processKillHook (.err e) tk = ⟨.ok .undef, false⟩) ∧
    (∀ (e : JsError) (tk : Bool), ¬ e.code = some "EPERM" → ¬ e.code = some "ESRCH" →
       processKillHook (.err e) tk = ⟨.error e, false⟩) ∧
    (∀ (pid : Option Nat) (v : JsValue) (tk : Bool),
       childProcessKillHook pid (.ok v) tk = ⟨.ok v, false⟩) ∧
    (∀ (pid : Option Nat) (e : JsError) (tk : Bool),
       e.code = some "EPERM" ∨ e.code = some "ESRCH" →
       childProcessKillHook pid (.err e) tk = ⟨.ok .undef, pidTruthy pid⟩) ∧
    (∀ (pid : Option Nat) (e : JsError) (tk : Bool),
       ¬ e.code = some "EPERM" → ¬ e.code = some "ESRCH" →
       childProcessKillHook pid (.err e) tk = ⟨.error e, false⟩) ∧
    ((∀ (e : JsError) (tk : Bool),
       e.code = some "EPERM" ∨ e.code = some "ESRCH" →
       (processKillHook (.err e) tk).result = .ok .undef ∧
       ∀ pid, (childProcessKillHook pid (.err e) tk).result = .ok .undef) ∧
     ¬ JsValue.undef = processKillSuccessValue ∧
     ¬ JsValue.undef = childProcessKillSuccessValue) := by
  refine ⟨fun v tk => rfl, ?_, ?_, ?_, fun pid v tk => rfl, ?_, ?_, ?_⟩
  · intro e tk h
    simp [processKillHook, h]
  · intro e tk h
    simp [processKillHook, h]
  · intro e tk h1 h2
    simp [processKillHook, h1, h2]
  · intro pid e tk h
    rcases h with h | h <;> by_cases hp : pidTruthy pid = true <;>
      simp [childProcessKillHook, h, hp, ite_self]
  · intro pid e tk h1 h2
    simp [childProcessKillHook, h1, h2]
  · refine ⟨?_, by decide, by decide⟩
    intro e tk h
    refine ⟨?_, fun pid => ?_⟩
    · rcases h with h | h <;> simp [processKillHook, h]
    · rcases h with h | h <;> by_cases hp : pidTruthy pid = true <;>
        simp [childProcessKillHook, h, hp, ite_self]

/-- Counterexample for C5 as stated: a recovered `EPERM` failure of
`process.kill` returns `undefined`, while the unhooked `process.kill` returns
`true` on success — so the recovered return value does not equal the original
primitive's success-case return value exactly; likewise for a recovered
`ESRCH` failure of `ChildProcess.prototype.kill`. -/
theorem kill_hooks_return_value_counterexample :
    (processKillHook (.ok processKillSuccessValue) false).result =
      .ok (JsValue.bool true) ∧
    (processKillHook (.err ⟨some "EPERM", "kill EPERM"⟩) false).result =
      .ok JsValue.undef ∧
    ¬ (processKillHook (.err ⟨some "EPERM", "kill EPERM"⟩) false).result =
        .ok processKillSuccessValue ∧
    (childProcessKillHook (some 4242) (.ok childProcessKillSuccessValue) false).result =
      .ok (JsValue.bool true) ∧
    ¬ (childProcessKillHook (some 4242) (.err ⟨some "ESRCH", "kill ESRCH"⟩) false).result =
        .ok childProcessKillSuccessValue := by
  decide

/-- Witness for C5's amended theorem: a concrete `EPERM` failure with a
failing fallback is recovered, runs taskkill, and returns `undefined`. -/
theorem kill_hooks_error_recovery_witness :
    processKillHook (.err ⟨some "EPERM", "kill EPERM"⟩) true = ⟨.ok .undef, true⟩ ∧
    childProcessKillHook (some 4242) (.err ⟨some "EPERM", "kill EPERM"⟩) true =
      ⟨.ok .undef, pidTruthy (some 4242)⟩ :=
  ⟨kill_hooks_error_recovery.2.1 ⟨some "EPERM", "kill EPERM"⟩ true rfl,
   kill_hooks_error_recovery.2.2.2.2.2.1 (some 4242) ⟨some "EPERM", "kill EPERM"⟩ true
     (Or.inl rfl)⟩

/-- C6 amended: the Path Translator maps `<Letter>:\a\b` to
`/<lowercase-letter>/a/b`; and its output equals its input on every
already-POSIX (backslash-free) string that neither starts with a drive-letter
prefix `<Letter>:` nor starts with `/` followed by an uppercase ASCII letter.
(The unamended claim fails on `/Users`: see the counterexample.) -/
theorem path_translator_amended :
    (∀ (c : Char) (a b : List Char), c.isAlpha = true →
       Char.ofNat 92 ∉ a → Char.ofNat 92 ∉ b →
       windowsToPosix ⟨c :: ':' :: Char.ofNat 92 :: (a ++ Char.ofNat 92 :: b)⟩ =
         ⟨'/' :: c.toLower :: '/' :: (a ++ '/' :: b)⟩) ∧
    (∀ s : String, Char.ofNat 92 ∉ s.data →
       driveGuard s.data = false → slashUpperGuard s.data = false →
       windowsToPosix s = s) := by
  have hno_bs : ∀ (l : List Char), Char.ofNat 92 ∉ l → replaceBackslashes l = l := by
    intro l h
    induction l with
    | nil => rfl
    | cons c rest ih =>
      simp only [List.mem_cons, not_or] at h
      have hc : ¬ c = Char.ofNat 92 := fun hc => h.1 hc.symm
      have hrest := ih h.2
      simp only [replaceBackslashes, List.map_cons, if_neg hc] at *
      rw [hrest]
  constructor
  · intro c a b hc ha hb
    have hcbs : ¬ c = Char.ofNat 92 := by
      intro he
      subst he
      exact absurd hc (by decide)
    have h1 : replaceBackslashes (c :: ':' :: Char.ofNat 92 :: (a ++ Char.ofNat 92 :: b)) =
        c :: ':' :: '/' :: (a ++ '/' :: b) := by
      simp only [replaceBackslashes, List.map_cons, List.map_append, if_neg hcbs,
        if_neg (show ¬ ':' = Char.ofNat 92 by decide), if_pos rfl, ite_true]
      have h2 := hno_bs a ha
      have h3 := hno_bs b hb
      simp only [replaceBackslashes] at h2 h3
      rw [h2, h3]
    unfold windowsToPosix
    rw [h1]
    have h4 : driveToSlash (c :: ':' :: '/' :: (a ++ '/' :: b)) =
        '/' :: c :: '/' :: (a ++ '/' :: b) := by
      simp [driveToSlash, hc]
    rw [h4]
    have h5 : lowerDrive ('/' :: c :: '/' :: (a ++ '/' :: b)) =
        '/' :: c.toLower :: '/' :: (a ++ '/' :: b) := by
      simp [lowerDrive, hc]
    rw [h5]
  · intro s hbs hdrive hslash
    obtain ⟨l⟩ := s
    simp only [String.data] at hbs hdrive hslash
    unfold windowsToPosix
    rw [hno_bs l hbs]
    have hd : driveToSlash l = l := by
      match l with
      | [] => rfl
      | [c] => rfl
      | c1 :: c2 :: rest =>
        have hcond : ¬(c1.isAlpha = true ∧ c2 = ':') := by
          rintro ⟨ha, hcolon⟩
          simp [driveGuard, ha, hcolon] at hdrive
        simp [driveToSlash, hcond]
    rw [hd]
    have hl : lowerDrive l = l := by
      match l with
      | [] => rfl
      | [c] => rfl
      | c1 :: c2 :: rest =>
        by_cases hcond : c1 = '/' ∧ c2.isAlpha = true
        · have hlow : c2.toLower = c2 := by
            obtain ⟨hc1, hc2⟩ := hcond
            subst hc1
            simpa [slashUpperGuard, hc2] using hslash
          simp [lowerDrive, hcond, hlow]
        · simp [lowerDrive, hcond]
    rw [hl]

/-- Counterexample for C6 as stated: `/Users` is already-POSIX (contains no
backslash), yet the Path Translator lowercases the letter after the leading
slash and returns `/users`, so the output does not equal the input. -/
theorem path_translator_posix_counterexample :
    Char.ofNat 92 ∉ "/Users".data ∧
    windowsToPosix "/Users" = "/users" ∧
    ¬ windowsToPosix "/Users" = "/Users" := by
  refine ⟨by decide, by decide, by decide⟩

/-- Witness for C6's amended theorem: `C:\Users\johan` translates to
`/c/Users/johan`, and the already-lowercase POSIX path `/users/johan` is
returned unchanged. -/
theorem path_translator_amended_witness :
    windowsToPosix ⟨'C' :: ':' :: Char.ofNat 92 ::
        ("Users".data ++ Char.ofNat 92 :: "johan".data)⟩ =
      ⟨'/' :: 'C'.toLower :: '/' :: ("Users".data ++ '/' :: "johan".data)⟩ ∧
    windowsToPosix "/users/johan" = "/users/johan" :=
  ⟨path_translator_amended.1 'C' "Users".data "johan".data (by decide) (by decide)
     (by decide),
   path_translator_amended.2 "/users/johan" (by decide) (by decide) (by decide)⟩

/-- C7: a permission request whose tool category is in the fixed exclusion
set `[AskUserQuestion, ExitPlanMode]` returns the empty string (passthrough)
and triggers exactly one notification call; a request for any other category
(including a missing category), and any input whose parse fails, returns the
structured allow-decision payload with no notification; and that payload
contains no `ok` key anywhere. -/
theorem permission_hook_decisions :
    excludedTools = ["AskUserQuestion", "ExitPlanMode"] ∧
    (∀ (req : PermissionRequest) (t : String), req.tool_name = some t →
       t ∈ excludedTools → handlePermissionRequest (.ok req) = ⟨.passthrough, 1⟩) ∧
    (∀ req : PermissionRequest, (∀ t, req.tool_name = some t → t ∉ excludedTools) →
       handlePermissionRequest (.ok req) = ⟨.payload allowDecisionPayload, 0⟩) ∧
    (∀ e : Unit, handlePermissionRequest (.error e) = ⟨.payload allowDecisionPayload, 0⟩) ∧
    allowDecisionPayload.hasKeyDeep "ok" = false := by
  refine ⟨rfl, ?_, ?_, fun e => rfl, by decide⟩
  · intro req t ht hmem
    simp only [handlePermissionRequest, ht]
    rw [if_pos (List.elem_eq_true_of_mem hmem)]
  · intro req hnot
    rcases ht : req.tool_name with _ | t
    · simp [handlePermissionRequest, ht]
    · simp only [handlePermissionRequest, ht]
      rw [if_neg (fun hc => (hnot t ht) (List.mem_of_elem_eq_true hc))]

/-- Witness for C7: an `AskUserQuestion` request passes through with one
notification; a `Bash` request is auto-approved with none. -/
theorem permission_hook_decisions_witness :
    handlePermissionRequest (.ok ⟨some "AskUserQuestion", some "C:/proj"⟩) =
      ⟨.passthrough, 1⟩ ∧
    handlePermissionRequest (.ok ⟨some "Bash", some "C:/proj"⟩) =
      ⟨.payload allowDecisionPayload, 0⟩ :=
  ⟨permission_hook_decisions.2.1 ⟨some "AskUserQuestion", some "C:/proj"⟩
     "AskUserQuestion" rfl (by decide),
   permission_hook_decisions.2.2.1 ⟨some "Bash", some "C:/proj"⟩
     (fun t ht hmem => by
       injection ht with ht
       subst ht
       exact absurd hmem (by decide))⟩

/-- Helper for C8: a string surrounded by a prefix and a suffix contains
itself. -/
theorem isPrefixOf_append_self (l t : List Char) : l.isPrefixOf (l ++ t) = true := by
  induction l with
  | nil => simp [List.isPrefixOf]
  | cons c rest ih => simp [List.isPrefixOf, ih]

/-- Helper for C8: `(pre ++ needle ++ post).includes(needle)` always holds. -/
theorem strIncludes_of_surround (pre post needle : String) :
    strIncludes (pre ++ needle ++ post) needle = true := by
  simp only [strIncludes, listIncludes, List.any_eq_true]
  refine ⟨needle.data ++ post.data, ?_, isPrefixOf_append_self _ _⟩
  rw [List.mem_tails]
  have h : (pre ++ needle ++ post).data = pre.data ++ (needle.data ++ post.data) := by
    simp [String.data_append, List.append_assoc]
  rw [h]
  exact List.suffix_append _ _

/-- C8: a blocked synthetic subprocess emits nothing synchronously during
creation; the deferred (next-tick) event list contains exactly one stderr
`data` event, whose payload contains the denial reason, at index 0 — strictly
before the child `close` event at index 3, which carries the non-zero exit
status 1. -/
theorem blocked_child_event_sequence (reason : String) :
    (createBlockedChildProcess reason).syncEvents = [] ∧
    ((createBlockedChildProcess reason).nextTickEvents.filter isStderrData) =
      [.stderrData ("[blocked] " ++ reason ++ "\n")] ∧
    strIncludes ("[blocked] " ++ reason ++ "\n") reason = true ∧
    (createBlockedChildProcess reason).nextTickEvents.findIdx? isStderrData = some 0 ∧
    (createBlockedChildProcess reason).nextTickEvents.findIdx? isExitClose = some 3 ∧
    ChildEvent.exitClose 1 ∈ (createBlockedChildProcess reason).nextTickEvents := by
  refine ⟨rfl, rfl, strIncludes_of_surround "[blocked] " "\n" reason, rfl, rfl, ?_⟩
  simp [createBlockedChildProcess]

/-- Counterexample for C9 as stated: the signal controller's `killChildren`
clears the whole Tracked Subprocess Set eagerly — the entry for pid 5 is
removed without any `exit` or `error` notification from that subprocess. -/
theorem tracked_set_eager_clear_counterexample :
    (5 : ℕ) ∈ (trackStep ⟨∅, ∅⟩ (.spawnReal 5)).tracked ∧
    removesEntries .killChildren = true ∧
    (trackStep (trackStep ⟨∅, ∅⟩ (.spawnReal 5)) .killChildren).tracked = ∅ := by
  refine ⟨by decide, rfl, by decide⟩

/-- C9 amended: entries leave the Tracked Subprocess Set only through the
subprocess's own exit or error notification or through the signal controller's
`killChildren` teardown, which force-kills every tracked subprocess before
clearing the set; consequently, across every operation sequence, the set only
ever contains subprocesses that are plausibly still alive (`tracked ⊆ alive`
is an invariant), and any operation sequence free of exit/error/teardown never
removes an entry. -/
theorem tracked_set_amended_invariant :
    (∀ (ops : List TrackOp) (init : TrackState), init.tracked ⊆ init.alive →
       (runOps init ops).tracked ⊆ (runOps init ops).alive) ∧
    (∀ (ops : List TrackOp) (init : TrackState),
       (∀ op ∈ ops, removesEntries op = false) →
       init.tracked ⊆ (runOps init ops).tracked) := by
  constructor
  · intro ops
    induction ops with
    | nil => exact fun init h => h
    | cons op rest ih =>
      intro init h
      refine ih (trackStep init op) ?_
      cases op with
      | spawnReal pid =>
        simp only [trackStep]
        split
        · exact Finset.insert_subset_insert _ h
        · exact h
      | spawnSynthetic => exact h
      | childExit pid => exact Finset.erase_subset_erase _ h
      | childError pid => exact (Finset.erase_subset _ _).trans h
      | killChildren => exact Finset.empty_subset _
      | supervisorRestart => exact h
  · intro ops
    induction ops with
    | nil => exact fun init _ => Finset.Subset.refl _
    | cons op rest ih =>
      intro init hall
      have hstep : init.tracked ⊆ (trackStep init op).tracked := by
        have hop := hall op (List.mem_cons_self op rest)
        cases op with
        | spawnReal pid =>
          simp only [trackStep]
          split
          · exact Finset.subset_insert _ _
          · exact Finset.Subset.refl _
        | spawnSynthetic => exact Finset.Subset.refl _
        | childExit pid => exact absurd hop (by simp [removesEntries])
        | childError pid => exact absurd hop (by simp [removesEntries])
        | killChildren => exact absurd hop (by simp [removesEntries])
        | supervisorRestart => exact Finset.Subset.refl _
      exact hstep.trans (ih (trackStep init op) (fun o ho => hall o (List.mem_cons_of_mem op ho)))

/-- Witness for C9's amended invariant on a concrete operation sequence
(spawn, own exit, another spawn, signal teardown) and a removal-free
sequence. -/
theorem tracked_set_amended_invariant_witness :
    (runOps ⟨∅, ∅⟩ [.spawnReal 3, .childExit 3, .spawnReal 4, .killChildren]).tracked ⊆
      (runOps ⟨∅, ∅⟩ [.spawnReal 3, .childExit 3, .spawnReal 4, .killChildren]).alive ∧
    (⟨{7}, {7}⟩ : TrackState).tracked ⊆
      (runOps ⟨{7}, {7}⟩ [.spawnReal 3, .spawnSynthetic, .supervisorRestart]).tracked :=
  ⟨tracked_set_amended_invariant.1 _ ⟨∅, ∅⟩ (by decide),
   tracked_set_amended_invariant.2 _ ⟨{7}, {7}⟩ (by decide)⟩

/-- Updating a key makes it readable with the written value. -/
theorem getField_setField_same (fs : List (String × Json)) (k : String) (v : Json) :
    getField (setField fs k v) k = some v := by
  induction fs with
  | nil => simp [setField, getField, List.find?]
  | cons f rest ih =>
    by_cases h : f.1 == k
    · simp [setField, h, getField, List.find?]
    · simp only [setField, h, if_false, Bool.false_eq_true]
      simpa [getField, List.find?, h] using ih

/-- Updating a key leaves every other key unchanged. -/
theorem getField_setField_other (fs : List (String × Json)) (k k' : String)
    (v : Json) (hk : ¬ k' = k) :
    getField (setField fs k v) k' = getField fs k' := by
  have hkk : (k == k') = false := beq_eq_false_iff_ne.mpr (fun h => hk h.symm)
  induction fs with
  | nil =>
    simp [setField, getField, List.find?, hkk]
  | cons f rest ih =>
    by_cases h : f.1 == k
    · have hf : ¬ (f.1 == k') = true := by
        simp only [beq_iff_eq] at h ⊢
        rw [h]
        exact fun hh => hk hh.symm
      simp [setField, h, getField, List.find?, hf, hkk]
    · by_cases hf : f.1 == k'
      · simp [setField, h, getField, List.find?, hf]
      · simp only [setField, h, if_false, Bool.false_eq_true]
        simpa [getField, List.find?, hf, h] using ih

/-- When the hook's emptiness test reports a truthy length, nothing is
injected and the parsed settings are re-serialized unchanged. -/
theorem injectResult_noop (fs : List (String × Json))
    (h : prLengthTruthy (.obj fs) = some true) :
    injectResult (.obj fs) = some (.obj fs) := by
  simp [injectResult, h]

/-- When the emptiness test reports no truthy length and the `hooks` field has
a workable shape, the marker entry is written into `hooks.PermissionRequest`. -/
theorem injectResult_inject (fs : List (String × Json))
    (hpr : prLengthTruthy (.obj fs) = some false)
    (hok : hooksFieldOk (getField fs "hooks") = true) :
    injectResult (.obj fs) =
      some (.obj (setField fs "hooks"
        (.obj (setField (hooksObjFields fs) "PermissionRequest" markerHookEntry)))) := by
  simp only [injectResult, hpr]
  rcases hh : getField fs "hooks" with _ | hv
  · simp [hooksObjFields, hh]
  · rw [hh] at hok
    rcases hv with _ | b | n | s | elems | hfs
    · simp [hooksObjFields, hh, truthy]
    · have hb : b = false := by
        rcases b with _ | _
        · rfl
        · exact absurd hok (by simp [hooksFieldOk, truthy])
      subst hb
      simp [hooksObjFields, hh, truthy]
    · have hn : truthy (.num n) = false := by
        rcases ht : truthy (.num n) with _ | _
        · rfl
        · exact absurd hok (by simp [hooksFieldOk, ht])
      simp [hooksObjFields, hh, hn]
    · have hs : truthy (.str s) = false := by
        rcases ht : truthy (.str s) with _ | _
        · rfl
        · exact absurd hok (by simp [hooksFieldOk, ht])
      simp [hooksObjFields, hh, hs]
    · exact absurd hok (by simp [hooksFieldOk])
    · simp [hooksObjFields, hh, truthy]

/-- Counterexample for C10 as stated: `{"hooks": 5}` parses as JSON and has no
`hooks.PermissionRequest` (the hook's own emptiness test reports it missing),
yet the read hook returns the original content unchanged — no marker entry is
injected, because the strict-mode assignment `settings.hooks.PermissionRequest
= [...]` on the number `5` throws and the exception handler falls back to the
original bytes. -/
theorem settings_hook_truthy_primitive_counterexample :
    settingsReadResult (some (.obj [("hooks", .num 5)])) = none ∧
    prLengthTruthy (.obj [("hooks", .num 5)]) = some false :=
  ⟨rfl, rfl⟩

/-- C10 amended: content that does not parse is returned byte-for-byte; for
content parsing to an object whose `hooks` field is absent, falsy, or itself a
plain object: when the hook's emptiness test finds a non-empty
`hooks.PermissionRequest` the parsed value is re-serialized unchanged, and
otherwise `hooks.PermissionRequest` is set to the injected marker-command
entry while every other top-level field and every other field of `hooks` is
preserved.  (Settings whose `hooks` is a truthy primitive or an array escape
injection — see the counterexample.) -/
theorem settings_hook_amended :
    settingsReadResult none = none ∧
    (∀ fs : List (String × Json), prLengthTruthy (.obj fs) = some true →
       injectResult (.obj fs) = some (.obj fs)) ∧
    (∀ fs : List (String × Json), hooksFieldOk (getField fs "hooks") = true →
       prLengthTruthy (.obj fs) = some false →
       ∃ fs', injectResult (.obj fs) = some (.obj fs') ∧
         (∀ k, ¬ k = "hooks" → getField fs' k = getField fs k) ∧
         getField fs' "hooks" =
           some (.obj (setField (hooksObjFields fs) "PermissionRequest" markerHookEntry)) ∧
         getField (setField (hooksObjFields fs) "PermissionRequest" markerHookEntry)
           "PermissionRequest" = some markerHookEntry ∧
         (∀ k, ¬ k = "PermissionRequest" →
           getField (setField (hooksObjFields fs) "PermissionRequest" markerHookEntry) k =
             getField (hooksObjFields fs) k)) := by
  refine ⟨rfl, fun fs h => injectResult_noop fs h, ?_⟩
  intro fs hok hpr
  refine ⟨setField fs "hooks"
    (.obj (setField (hooksObjFields fs) "PermissionRequest" markerHookEntry)),
    injectResult_inject fs hpr hok, ?_, getField_setField_same _ _ _,
    getField_setField_same _ _ _, ?_⟩
  · intro k hk
    exact getField_setField_other _ _ _ _ hk
  · intro k hk
    exact getField_setField_other _ _ _ _ hk

/-- Witness for C10's amended theorem at a concrete settings object with an
unrelated top-level field and an unrelated hook registration. -/
theorem settings_hook_amended_witness :
    prLengthTruthy (.obj [("model", .str "opus"),
      ("hooks", .obj [("Stop", .str "notify")])]) = some false ∧
    (∃ fs', injectResult (.obj [("model", .str "opus"),
        ("hooks", .obj [("Stop", .str "notify")])]) = some (.obj fs') ∧
      (∀ k, ¬ k = "hooks" →
        getField fs' k =
          getField [("model", .str "opus"),
            ("hooks", .obj [("Stop", .str "notify")])] k) ∧
      getField fs' "hooks" =
        some (.obj (setField (hooksObjFields [("model", .str "opus"),
          ("hooks", .obj [("Stop", .str "notify")])]) "PermissionRequest" markerHookEntry)) ∧
      getField (setField (hooksObjFields [("model", .str "opus"),
          ("hooks", .obj [("Stop", .str "notify")])]) "PermissionRequest" markerHookEntry)
        "PermissionRequest" = some markerHookEntry ∧
      (∀ k, ¬ k = "PermissionRequest" →
        getField (setField (hooksObjFields [("model", .str "opus"),
            ("hooks", .obj [("Stop", .str "notify")])]) "PermissionRequest" markerHookEntry) k =
          getField (hooksObjFields [("model", .str "opus"),
            ("hooks", .obj [("Stop", .str "notify")])]) k)) :=
  ⟨rfl, settings_hook_amended.2.2 _ rfl rfl⟩

end Wclaude
